import Mathlib

/-!
# Verification of the sqlite-s3-query specification against its source

This development shallowly embeds the parts of the repository that the
specification's claims are about:

* the AWS Signature Version 4 signer `aws_sigv4_headers` (from `test.py`),
  including a complete executable SHA-256 and HMAC-SHA256 over `Nat` bytes,
  Python's `urllib.parse.quote` percent-encoding, Python `sorted` on pairs of
  strings, and `strftime`-style timestamp formatting;
* models of the Snapshot Pinner / Object Reader / Session components, whose
  module (`sqlite_s3_query.py`) is not present under `src/`; those are
  modelled from the specification's words, as marked in their doc comments.
-/

namespace SqliteS3

/-! ## Bytes, hex and UTF-8

Bytes are represented as naturals (values `< 256` in all uses). -/

/-- UTF-8 encoding of a single character, by code point, written with division
and remainder so ranges of the output bytes are easy to bound. -/
def utf8Bytes (c : Char) : List Nat :=
  let n := c.toNat
  if n < 128 then [n]
  else if n < 2048 then [192 + n / 64, 128 + n % 64]
  else if n < 65536 then [224 + n / 4096, 128 + (n / 64) % 64, 128 + n % 64]
  else [240 + n / 262144, 128 + (n / 4096) % 64, 128 + (n / 64) % 64, 128 + n % 64]

/-- The UTF-8 bytes of a string, the embedding of Python's `str.encode`
(for ASCII input this agrees with `encode('ascii')`, which the source uses). -/
def strBytes (s : String) : List Nat :=
  s.data.flatMap utf8Bytes

/-- Lowercase hex digit for a value `< 16`. -/
def hexDigitLower (n : Nat) : Char :=
  if n < 10 then Char.ofNat (48 + n) else Char.ofNat (87 + n)

/-- Uppercase hex digit for a value `< 16`, used by percent-encoding. -/
def hexDigitUpper (n : Nat) : Char :=
  if n < 10 then Char.ofNat (48 + n) else Char.ofNat (55 + n)

/-- Lowercase hex of a byte list: the embedding of Python's `bytes.hex()`
and `hashlib`'s `hexdigest()`. -/
def toHexLower (bs : List Nat) : String :=
  String.join (bs.map (fun b => String.mk [hexDigitLower (b / 16 % 16), hexDigitLower (b % 16)]))

/-! ## SHA-256 (FIPS 180-4), executable over `Nat` with explicit `% 2^32` -/

/-- Truncate to a 32-bit word. -/
def w32 (n : Nat) : Nat := n % 4294967296

/-- Right-rotate a 32-bit word by `k` (for `0 < k < 32`). -/
def rotr32 (k n : Nat) : Nat := n / 2 ^ k + n % 2 ^ k * 2 ^ (32 - k)

def xor3 (a b c : Nat) : Nat := (a ^^^ b) ^^^ c

def smallSigma0 (x : Nat) : Nat := xor3 (rotr32 7 x) (rotr32 18 x) (x / 8)

def smallSigma1 (x : Nat) : Nat := xor3 (rotr32 17 x) (rotr32 19 x) (x / 1024)

def bigSigma0 (x : Nat) : Nat := xor3 (rotr32 2 x) (rotr32 13 x) (rotr32 22 x)

def bigSigma1 (x : Nat) : Nat := xor3 (rotr32 6 x) (rotr32 11 x) (rotr32 25 x)

/-- The choice function `Ch(x, y, z)`; `x ^^^ 4294967295` is the 32-bit
complement for `x < 2^32`. -/
def chW (x y z : Nat) : Nat := (x &&& y) ^^^ ((x ^^^ 4294967295) &&& z)

def majW (x y z : Nat) : Nat := xor3 (x &&& y) (x &&& z) (y &&& z)

/-- The 64 SHA-256 round constants. -/
def sha256K : List Nat :=
  [1116352408, 1899447441, 3049323471, 3921009573, 961987163, 1508970993,
   2453635748, 2870763221, 3624381080, 310598401, 607225278, 1426881987,
   1925078388, 2162078206, 2614888103, 3248222580, 3835390401, 4022224774,
   264347078, 604807628, 770255983, 1249150122, 1555081692, 1996064986,
   2554220882, 2821834349, 2952996808, 3210313671, 3336571891, 3584528711,
   113926993, 338241895, 666307205, 773529912, 1294757372, 1396182291,
   1695183700, 1986661051, 2177026350, 2456956037, 2730485921, 2820302411,
   3259730800, 3345764771, 3516065817, 3600352804, 4094571909, 275423344,
   430227734, 506948616, 659060556, 883997877, 958139571, 1322822218,
   1537002063, 1747873779, 1955562222, 2024104815, 2227730452, 2361852424,
   2428436474, 2756734187, 3204031479, 3329325298]

/-- The SHA-256 initial hash value. -/
def sha256H0 : List Nat :=
  [1779033703, 3144134277, 1013904242, 2773480762,
   1359893119, 2600822924, 528734635, 1541459225]

/-- Big-endian 8-byte encoding of the (mod `2^64`) bit length. -/
def be64 (n : Nat) : List Nat :=
  let m := n % 18446744073709551616
  [m / 2 ^ 56 % 256, m / 2 ^ 48 % 256, m / 2 ^ 40 % 256, m / 2 ^ 32 % 256,
   m / 2 ^ 24 % 256, m / 2 ^ 16 % 256, m / 2 ^ 8 % 256, m % 256]

/-- SHA-256 padding: `0x80`, zeros to 56 mod 64, then the bit length. -/
def sha256Pad (msg : List Nat) : List Nat :=
  msg ++ [128] ++ List.replicate ((119 - msg.length % 64) % 64) 0 ++ be64 (msg.length * 8)

/-- Group bytes into big-endian 32-bit words. -/
def bytesToWords : List Nat → List Nat
  | a :: b :: c :: d :: rest => (a * 16777216 + b * 65536 + c * 256 + d) :: bytesToWords rest
  | _ => []

/-- One message-schedule extension step. -/
def scheduleExtend (w : List Nat) : List Nat :=
  let n := w.length
  w ++ [w32 (smallSigma1 (w.getD (n - 2) 0) + w.getD (n - 7) 0 +
             smallSigma0 (w.getD (n - 15) 0) + w.getD (n - 16) 0)]

/-- Extend the 16 chunk words to the 64-entry message schedule. -/
def sha256Schedule (w16 : List Nat) : List Nat :=
  (List.range 48).foldl (fun w _ => scheduleExtend w) w16

/-- The eight SHA-256 working variables. -/
structure Sha256St where
  a : Nat
  b : Nat
  c : Nat
  d : Nat
  e : Nat
  f : Nat
  g : Nat
  h : Nat

/-- One compression round. -/
def sha256Step (st : Sha256St) (kw : Nat × Nat) : Sha256St :=
  let t1 := w32 (st.h + bigSigma1 st.e + chW st.e st.f st.g + kw.1 + kw.2)
  let t2 := w32 (bigSigma0 st.a + majW st.a st.b st.c)
  ⟨w32 (t1 + t2), st.a, st.b, st.c, w32 (st.d + t1), st.e, st.f, st.g⟩

def listToSt (hs : List Nat) : Sha256St :=
  ⟨hs.getD 0 0, hs.getD 1 0, hs.getD 2 0, hs.getD 3 0,
   hs.getD 4 0, hs.getD 5 0, hs.getD 6 0, hs.getD 7 0⟩

def stToList (st : Sha256St) : List Nat :=
  [st.a, st.b, st.c, st.d, st.e, st.f, st.g, st.h]

/-- Process one 64-byte chunk. -/
def sha256ProcessChunk (hs : List Nat) (chunk : List Nat) : List Nat :=
  let w := sha256Schedule (bytesToWords chunk)
  let st := (sha256K.zip w).foldl sha256Step (listToSt hs)
  List.zipWith (fun x y => w32 (x + y)) hs (stToList st)

/-- Split into 64-byte chunks, with the length of the list as fuel. -/
def chunksAux : Nat → List Nat → List (List Nat)
  | 0, _ => []
  | _, [] => []
  | fuel + 1, l => l.take 64 :: chunksAux fuel (l.drop 64)

def chunks64 (l : List Nat) : List (List Nat) := chunksAux l.length l

/-- Big-endian bytes of a 32-bit word. -/
def wordBytes (w : Nat) : List Nat :=
  [w / 2 ^ 24 % 256, w / 2 ^ 16 % 256, w / 2 ^ 8 % 256, w % 256]

/-- SHA-256 of a byte list: the embedding of Python's `hashlib.sha256(...).digest()`. -/
def sha256Bytes (msg : List Nat) : List Nat :=
  ((chunks64 (sha256Pad msg)).foldl sha256ProcessChunk sha256H0).flatMap wordBytes

/-- HMAC-SHA256 (RFC 2104): the embedding of Python's
`hmac.new(key, msg, hashlib.sha256).digest()`. -/
def hmacSha256 (key msg : List Nat) : List Nat :=
  let k0 := if 64 < key.length then sha256Bytes key else key
  let k := k0 ++ List.replicate (64 - k0.length) 0
  sha256Bytes ((k.map (fun b => b ^^^ 92)) ++ sha256Bytes ((k.map (fun b => b ^^^ 54)) ++ msg))

/-! ## Python string helpers used by `aws_sigv4_headers` in `test.py` -/

/-- Python's always-safe bytes in `urllib.parse.quote`: ASCII letters, digits,
and `_`, `.`, `-`, `~`. -/
def pyAlwaysSafe (b : Nat) : Bool :=
  (65 ≤ b && b ≤ 90) || (97 ≤ b && b ≤ 122) || (48 ≤ b && b ≤ 57) ||
    b == 95 || b == 46 || b == 45 || b == 126

/-- Percent-encoding of one byte under a `safe` string of extra ASCII bytes to
keep, uppercase hex as in CPython. -/
def pyQuoteByte (safe : String) (b : Nat) : String :=
  if pyAlwaysSafe b || (b < 128 && safe.data.contains (Char.ofNat b)) then
    String.mk [Char.ofNat b]
  else
    String.mk ['%', hexDigitUpper (b / 16 % 16), hexDigitUpper (b % 16)]

/-- The embedding of Python's `urllib.parse.quote(s, safe=safe)`. -/
def pyQuote (s : String) (safe : String) : String :=
  String.join ((strBytes s).map (pyQuoteByte safe))

/-- ASCII whitespace recognised by Python's `str.split()` with no argument. -/
def pyIsSpace (c : Char) : Bool :=
  c == ' ' || c == '\t' || c == '\n' || c == '\r' || c == '\x0b' || c == '\x0c'

/-- The embedding of Python's `' '.join(value.split())`: collapse runs of
whitespace to single spaces and trim. -/
def collapseWs (s : String) : String :=
  String.intercalate " " ((s.split pyIsSpace).filter (fun part => part ≠ ""))

/-- Python's `<` on pairs of strings (lexicographic on the components),
as a Bool-valued total preorder suitable for `List.mergeSort`. -/
def pairLeB (p q : String × String) : Bool :=
  decide (p.1 < q.1 ∨ (p.1 = q.1 ∧ p.2 ≤ q.2))

/-- The embedding of Python's `sorted` on lists of string pairs: a stable sort
by the lexicographic order on pairs. -/
def pySorted (l : List (String × String)) : List (String × String) :=
  l.mergeSort pairLeB

/-! ## The clock input

`test.py` reads `datetime.datetime.utcnow()` inside `aws_sigv4_headers`; the
embedding lifts that effect to an explicit `UTCTime` argument, so the signer
is a pure function of its inputs including the clock instant. -/

/-- A UTC instant at second precision, as consumed by the two `strftime`
format strings in the source. -/
structure UTCTime where
  year : Nat
  month : Nat
  day : Nat
  hour : Nat
  minute : Nat
  second : Nat

def pad2 (n : Nat) : String := if n < 10 then "0" ++ toString n else toString n

def pad4 (n : Nat) : String :=
  if n < 10 then "000" ++ toString n
  else if n < 100 then "00" ++ toString n
  else if n < 1000 then "0" ++ toString n
  else toString n

/-- The embedding of `now.strftime('%Y%m%dT%H%M%SZ')`. -/
def amzdateOf (t : UTCTime) : String :=
  pad4 t.year ++ pad2 t.month ++ pad2 t.day ++ "T" ++
    pad2 t.hour ++ pad2 t.minute ++ pad2 t.second ++ "Z"

/-- The embedding of `now.strftime('%Y%m%d')`. -/
def datestampOf (t : UTCTime) : String :=
  pad4 t.year ++ pad2 t.month ++ pad2 t.day

/-! ## The signer (`aws_sigv4_headers` in `test.py`)

The nested Python functions `canonical_request`, `sign` and `signature` are
lifted to top-level definitions with their free variables as parameters. -/

/-- The SignedHeaders list: `';'.join(key for key, _ in headers)`. -/
def sigv4_signed_headers (headers : List (String × String)) : String :=
  String.intercalate ";" (headers.map (fun kv => kv.1))

/-- The nested `canonical_request` function of `aws_sigv4_headers`. -/
def sigv4_canonical_request (method path : String) (params : List (String × String))
    (headers : List (String × String)) (signed_headers body_hash : String) : String :=
  let canonical_uri := pyQuote path "/~"
  let quoted_params := pySorted (params.map (fun kv => (pyQuote kv.1 "~", pyQuote kv.2 "~")))
  let canonical_querystring := String.intercalate "&" (quoted_params.map (fun kv => kv.1 ++ "=" ++ kv.2))
  let canonical_headers := String.join (headers.map (fun kv => kv.1 ++ ":" ++ kv.2 ++ "\n"))
  method ++ "\n" ++ canonical_uri ++ "\n" ++ canonical_querystring ++ "\n" ++
    canonical_headers ++ "\n" ++ signed_headers ++ "\n" ++ body_hash

/-- The nested `sign` function: `hmac.new(key, msg.encode('ascii'), hashlib.sha256).digest()`. -/
def sigv4_sign (key : List Nat) (msg : String) : List Nat :=
  hmacSha256 key (strBytes msg)

/-- The `string_to_sign` of the nested `signature` function. -/
def sigv4_string_to_sign (amzdate credential_scope canonical_request : String) : String :=
  "AWS4-HMAC-SHA256" ++ "\n" ++ amzdate ++ "\n" ++ credential_scope ++ "\n" ++
    toHexLower (sha256Bytes (strBytes canonical_request))

/-- The nested `signature` function: the HMAC-SHA256 key-derivation chain and
the final lowercase-hex signature. -/
def sigv4_signature (secret_access_key datestamp region service string_to_sign : String) : String :=
  let date_key := sigv4_sign (strBytes ("AWS4" ++ secret_access_key)) datestamp
  let region_key := sigv4_sign date_key region
  let service_key := sigv4_sign region_key service
  let request_key := sigv4_sign service_key "aws4_request"
  toHexLower (sigv4_sign request_key string_to_sign)

/-- The embedding of `aws_sigv4_headers` from `test.py`, with the implicit
`utcnow()` read lifted to the explicit `now` argument. Header names and
values are ASCII strings (the source returns ASCII-encoded bytes). -/
def aws_sigv4_headers (access_key_id secret_access_key : String)
    (pre_auth_headers : List (String × String)) (service region host method path : String)
    (params : List (String × String)) (body_hash : String) (now : UTCTime) :
    List (String × String) :=
  let algorithm := "AWS4-HMAC-SHA256"
  let amzdate := amzdateOf now
  let datestamp := datestampOf now
  let credential_scope := datestamp ++ "/" ++ region ++ "/" ++ service ++ "/aws4_request"
  let pre_auth_headers_lower := pre_auth_headers.map (fun kv => (kv.1.toLower, collapseWs kv.2))
  let required_headers := [("host", host), ("x-amz-content-sha256", body_hash), ("x-amz-date", amzdate)]
  let headers := pySorted (pre_auth_headers_lower ++ required_headers)
  let signed_headers := sigv4_signed_headers headers
  let canonical_request := sigv4_canonical_request method path params headers signed_headers body_hash
  let string_to_sign := sigv4_string_to_sign amzdate credential_scope canonical_request
  let signature := sigv4_signature secret_access_key datestamp region service string_to_sign
  [("authorization",
    algorithm ++ " Credential=" ++ access_key_id ++ "/" ++ credential_scope ++
      ", SignedHeaders=" ++ signed_headers ++ ", Signature=" ++ signature),
   ("x-amz-date", amzdate),
   ("x-amz-content-sha256", body_hash)] ++ pre_auth_headers

/-! ## Specification-side formulations of the canonical request (for C5)

These follow the specification's words ("percent-encoded path with `/` and `~`
preserved", "each key and value percent-encoded with `~` preserved, then
key-sorted, joined with `&` and `=`", "each `key:value\n`"), independently of
the `urllib.parse.quote` embedding, to be compared with the source's
definitions. -/

/-- A byte of the RFC 3986 unreserved set: ASCII alphanumerics and
`-`, `.`, `_`, `~`; percent-encoding preserves exactly these (plus any bytes a
particular use additionally preserves). -/
def specUnreservedByte (b : Nat) : Bool :=
  (48 ≤ b && b ≤ 57) || (65 ≤ b && b ≤ 90) || (97 ≤ b && b ≤ 122) ||
    b == 45 || b == 46 || b == 95 || b == 126

/-- Percent-encoding over UTF-8 bytes keeping exactly the bytes satisfying
`keep`, uppercase hex otherwise. -/
def specPercentEncode (keep : Nat → Bool) (s : String) : String :=
  String.join ((strBytes s).map (fun b =>
    if keep b then String.mk [Char.ofNat b]
    else String.mk ['%', hexDigitUpper (b / 16 % 16), hexDigitUpper (b % 16)]))

/-- The specification's canonical query string: each key and value
percent-encoded with `~` (and the unreserved bytes) preserved, the pairs then
sorted by key (ties broken by value, realising a deterministic key-sort),
joined with `=` within a pair and `&` between pairs. -/
def specCanonicalQuery (params : List (String × String)) : String :=
  String.intercalate "&"
    ((pySorted (params.map (fun kv =>
        (specPercentEncode specUnreservedByte kv.1,
         specPercentEncode specUnreservedByte kv.2)))).map
      (fun kv => kv.1 ++ "=" ++ kv.2))

/-- The specification's canonical header block: one `key:value\n` line per
header. -/
def specHeaderBlock (headers : List (String × String)) : String :=
  String.join (headers.map (fun kv => kv.1 ++ ":" ++ kv.2 ++ "\n"))

/-! ## Object Reader byte-count enforcement (for C2)

`sqlite_s3_query.py` is not under `src/`; the streaming reader is modelled
from the specification (§4.2): the reader streams response chunks into the
caller's buffer while tracking bytes consumed, fails with `OverreadError` when
the server returns more than the requested count and with `ShortReadError`
when it returns fewer, and the VFS shim surfaces any reader failure to the
engine as a disk I/O error. -/

inductive ReadError
  | overread
  | shortRead
deriving DecidableEq, Repr

/-- Modelled from the spec: the Object Reader's streaming loop. `acc` is the
caller's buffer so far; a chunk that would push the byte count past the
requested length fails immediately with `OverreadError`; a stream ending short
of the requested length fails with `ShortReadError`. -/
def readStream (len : Nat) : List (List Nat) → List Nat → Except ReadError (List Nat)
  | [], acc => if acc.length = len then .ok acc else .error .shortRead
  | chunk :: rest, acc =>
      if len < acc.length + chunk.length then .error .overread
      else readStream len rest (acc ++ chunk)

/-- Modelled from the spec: `read(offset, length) → bytes` of the Object
Reader, on the chunked body the server answered with. -/
def readExact (len : Nat) (chunks : List (List Nat)) : Except ReadError (List Nat) :=
  readStream len chunks []

/-- Modelled from the spec: the VFS shim collapses any reader failure into the
engine's disk-I/O sentinel, which the engine surfaces with the message
`disk I/O error`. -/
def surfaceToEngine : Except ReadError (List Nat) → Except String (List Nat)
  | .ok bs => .ok bs
  | .error _ => .error "disk I/O error"

/-- The string `needle` occurs contiguously inside `hay`. -/
def substringOf (needle hay : String) : Prop :=
  ∃ pre post, hay = pre ++ needle ++ post

/-! ## Snapshot pinning and the session read trace (for C1)

Modelled from the spec (§4.3, §4.2): on Session open the Snapshot Pinner
records the current version identifier of the object; every subsequent read
sends the pinned identifier as its `versionId` query parameter, while the
underlying object may gain new versions concurrently. -/

structure ObjectVersion where
  versionId : String
  body : List Nat

/-- A versioned object in the store: the versions written so far, the most
recent one last. -/
structure VersionedObject where
  versions : List ObjectVersion

/-- The version identifier an unversioned GET currently resolves to. -/
def VersionedObject.currentVersion (st : VersionedObject) : Option String :=
  st.versions.getLast?.map (fun v => v.versionId)

/-- Session state after pinning: just the recorded version identifier, never
mutated afterwards. -/
structure PinnedSession where
  pinnedVersion : String

/-- One signed ranged GET as issued by the Object Reader. -/
structure ReadRequest where
  offset : Nat
  length : Nat
  versionId : String

/-- What can happen during a session: the engine issues a page read, or some
other writer overwrites the object (adding a new version). -/
inductive SessionEvent
  | read (offset length : Nat)
  | overwrite (v : ObjectVersion)

/-- Modelled from the spec: the pinning handshake records the current version
identifier; with no version identifier available the session fails to open. -/
def sessionPin (st : VersionedObject) : Option PinnedSession :=
  st.currentVersion.map (fun v => ⟨v⟩)

/-- Run a session: overwrites update the store; each page read issues one
`ReadRequest` whose `versionId` is the session's pinned identifier. Returns
the final store and the trace of issued requests. -/
def runEvents (s : PinnedSession) :
    VersionedObject → List SessionEvent → VersionedObject × List ReadRequest
  | st, [] => (st, [])
  | st, .read off len :: rest =>
      let out := runEvents s st rest
      (out.1, ⟨off, len, s.pinnedVersion⟩ :: out.2)
  | st, .overwrite v :: rest => runEvents s ⟨st.versions ++ [v]⟩ rest

/-! ## Single-connection policy (for C3)

Modelled from the spec (§4.2, §5): the Session owns one HTTP client; the
client opens a TCP connection on its first request and reuses it for every
further request; session open performs the pinning probe request, and each
query's page reads go through the same client. -/

structure HttpClient where
  connectionsOpened : Nat
  connected : Bool

/-- Modelled from the spec: performing a request opens a connection only when
none is open yet, otherwise reuses the existing one. -/
def HttpClient.request (c : HttpClient) : HttpClient :=
  if c.connected then c else ⟨c.connectionsOpened + 1, true⟩

def newClient : HttpClient := ⟨0, false⟩

/-- Modelled from the spec: a session performs the pinning probe request at
open, then any number of queries, each causing any number of page reads, all
through the one client. A query is represented by its number of page reads. -/
def runSessionConnections (queries : List Nat) : HttpClient :=
  queries.foldl (fun c pages => (List.range pages).foldl (fun c _ => c.request) c)
    newClient.request

/-! ## Session open and first query on a bad database header (for C7)

Modelled from the spec: `sqlite_s3_query.py` is not under `src/`. §4.3 says
the pinner performs a ranged GET of bytes 0–99 and fails the open when no
version identifier is returned; scenario 5 of §8 ("the Session opens but the
first query fails with a database-format error") and
`TestSqliteS3Query.test_bad_db_header` in `src/test.py` (where the context
manager enters successfully and only the query raises) fix where a bad magic
header surfaces: at the first query, not at open. -/

/-- The 16-byte SQLite magic `SQLite format 3\x00`. -/
def sqliteMagicBytes : List Nat := strBytes "SQLite format 3" ++ [0]

/-- The pinning response: the optional `x-amz-version-id` header and the first
100 bytes of the object. -/
structure PinResponse where
  versionId : Option String
  first100 : List Nat

inductive OpenError
  | versioningDisabled
deriving DecidableEq, Repr

inductive QueryError
  | notADatabase
deriving DecidableEq, Repr

/-- Session state after a successful open. -/
structure OpenSession where
  pinnedVersion : String
  first100 : List Nat

/-- Modelled from the spec: session open pins the version and fails only when
the store returns no version identifier; the first 100 bytes are kept but not
validated at open (scenario 5 / `test_bad_db_header`). -/
def sessionOpen (resp : PinResponse) : Except OpenError OpenSession :=
  match resp.versionId with
  | none => .error .versioningDisabled
  | some v => .ok ⟨v, resp.first100⟩

/-- Modelled from the spec: the first query makes the engine parse the
database header, which fails with a database-format error when the object
does not begin with the SQLite magic. -/
def firstQuery (s : OpenSession) : Except QueryError Unit :=
  if s.first100.take 16 = sqliteMagicBytes then .ok () else .error .notADatabase

/-- The pinning response for the object of `test_bad_db_header`: a body of
100 star bytes (byte 42), stored under some version identifier. -/
def starsResponse : PinResponse := ⟨some "v1", List.replicate 100 42⟩

/-! ## Placeholder binding (for C8)

Modelled from the spec: `sqlite_s3_query.py` and the embedded relational
engine are outside `src/`; the Query Handle semantics for the statement
`SELECT my_col_a FROM my_table WHERE my_col_b = ?` is modelled from §4.6
(bind positional parameters in order, filter, project) and scenario 2 of §8. -/

/-- The table contents of `test_placeholder`: rows `('a','b')` and
`('c','d')` with columns `(my_col_a, my_col_b)`. -/
def my_table : List (String × String) := [("a", "b"), ("c", "d")]

/-- Modelled from the spec: evaluation of
`SELECT my_col_a FROM my_table WHERE my_col_b = ?` once the single positional
placeholder is bound to `p`: keep rows whose `my_col_b` equals `p`, project
to the one-column row `(my_col_a,)`. -/
def selectAWhereB (table : List (String × String)) (p : String) : List (List String) :=
  (table.filter (fun r => r.2 == p)).map (fun r => [r.1])

/-- Modelled from the spec: positional parameter binding — the statement has
exactly one placeholder, so exactly one parameter binds; any other arity is a
binding error. -/
def queryPlaceholder (table : List (String × String)) (params : List String) :
    Option (List (List String)) :=
  match params with
  | [p] => some (selectAWhereB table p)
  | _ => none

end SqliteS3

namespace SqliteS3

theorem char_toNat_lt (c : Char) : c.toNat < 1114112 := by
  rcases c.valid with h | ⟨_, h⟩
  · exact Nat.lt_trans h (by decide)
  · exact h

theorem utf8Bytes_lt (c : Char) : ∀ b ∈ utf8Bytes c, b < 256 := by
  intro b hb
  have hn : c.toNat < 1114112 := char_toNat_lt c
  simp only [utf8Bytes] at hb
  split_ifs at hb <;> simp only [List.mem_cons, List.not_mem_nil, or_false] at hb <;>
    [skip; skip; skip; skip] <;> omega

theorem strBytes_lt (s : String) : ∀ b ∈ strBytes s, b < 256 := by
  intro b hb
  simp only [strBytes, List.mem_flatMap] at hb
  obtain ⟨c, _, hc⟩ := hb
  exact utf8Bytes_lt c b hc

end SqliteS3

namespace SqliteS3

set_option maxRecDepth 4096 in
theorem pyQuoteByte_path (b : Nat) (hb : b < 256) :
    pyQuoteByte "/~" b =
      if specUnreservedByte b || b == 47 then String.mk [Char.ofNat b]
      else String.mk ['%', hexDigitUpper (b / 16 % 16), hexDigitUpper (b % 16)] := by
  revert b
  decide

set_option maxRecDepth 4096 in
theorem pyQuoteByte_tilde (b : Nat) (hb : b < 256) :
    pyQuoteByte "~" b =
      if specUnreservedByte b then String.mk [Char.ofNat b]
      else String.mk ['%', hexDigitUpper (b / 16 % 16), hexDigitUpper (b % 16)] := by
  revert b
  decide

theorem pyQuote_path_eq (s : String) :
    pyQuote s "/~" = specPercentEncode (fun b => specUnreservedByte b || b == 47) s := by
  unfold pyQuote specPercentEncode
  congr 1
  apply List.map_congr_left
  intro b hb
  exact pyQuoteByte_path b (strBytes_lt s b hb)

theorem pyQuote_tilde_eq (s : String) :
    pyQuote s "~" = specPercentEncode specUnreservedByte s := by
  unfold pyQuote specPercentEncode
  congr 1
  apply List.map_congr_left
  intro b hb
  exact pyQuoteByte_tilde b (strBytes_lt s b hb)

theorem pairLeB_trans (a b c : String × String)
    (h1 : pairLeB a b = true) (h2 : pairLeB b c = true) : pairLeB a c = true := by
  simp only [pairLeB, decide_eq_true_eq] at h1 h2 ⊢
  rcases h1 with h1 | ⟨e1, le1⟩ <;> rcases h2 with h2 | ⟨e2, le2⟩
  · exact Or.inl (lt_trans h1 h2)
  · exact Or.inl (by rw [← e2]; exact h1)
  · exact Or.inl (by rw [e1]; exact h2)
  · exact Or.inr ⟨e1.trans e2, le_trans le1 le2⟩

theorem pairLeB_total (a b : String × String) : (pairLeB a b || pairLeB b a) = true := by
  simp only [pairLeB, Bool.or_eq_true, decide_eq_true_eq]
  rcases lt_trichotomy a.1 b.1 with h | h | h
  · exact Or.inl (Or.inl h)
  · rcases le_total a.2 b.2 with h2 | h2
    · exact Or.inl (Or.inr ⟨h, h2⟩)
    · exact Or.inr (Or.inr ⟨h.symm, h2⟩)
  · exact Or.inr (Or.inl h)

theorem pairLeB_antisymm (a b : String × String)
    (h1 : pairLeB a b = true) (h2 : pairLeB b a = true) : a = b := by
  simp only [pairLeB, decide_eq_true_eq] at h1 h2
  rcases h1 with h1 | ⟨e1, le1⟩ <;> rcases h2 with h2 | ⟨e2, le2⟩
  · exact absurd h2 (lt_asymm h1)
  · rw [e2] at h1; exact absurd h1 (lt_irrefl _)
  · rw [e1] at h2; exact absurd h2 (lt_irrefl _)
  · exact Prod.ext e1 (le_antisymm le1 le2)

theorem pySorted_perm_eq {l1 l2 : List (String × String)} (h : l1.Perm l2) :
    pySorted l1 = pySorted l2 := by
  haveI : IsAntisymm (String × String) (fun a b => pairLeB a b = true) := ⟨pairLeB_antisymm⟩
  apply List.eq_of_perm_of_sorted (r := fun a b => pairLeB a b = true)
  · exact (List.mergeSort_perm l1 _).trans (h.trans (List.mergeSort_perm l2 _).symm)
  · exact List.sorted_mergeSort pairLeB_trans pairLeB_total l1
  · exact List.sorted_mergeSort pairLeB_trans pairLeB_total l2

end SqliteS3

namespace SqliteS3

theorem readStream_ok_length (len : Nat) :
    ∀ (chunks : List (List Nat)) (acc bs : List Nat),
      readStream len chunks acc = .ok bs → bs.length = len := by
  intro chunks
  induction chunks with
  | nil =>
    intro acc bs h
    simp only [readStream] at h
    split at h
    · cases h
      omega
    · cases h
  | cons c rest ih =>
    intro acc bs h
    simp only [readStream] at h
    split at h
    · cases h
    · exact ih _ _ h

theorem readStream_overread (len : Nat) :
    ∀ (chunks : List (List Nat)) (acc : List Nat),
      len < acc.length + chunks.flatten.length →
      ∃ e, readStream len chunks acc = .error e := by
  intro chunks
  induction chunks with
  | nil =>
    intro acc hlt
    simp only [List.flatten_nil, List.length_nil, Nat.add_zero] at hlt
    refine ⟨.shortRead, ?_⟩
    simp only [readStream]
    rw [if_neg (by omega)]
  | cons c rest ih =>
    intro acc hlt
    simp only [readStream]
    by_cases hc : len < acc.length + c.length
    · exact ⟨.overread, by rw [if_pos hc]⟩
    · have hlt2 : len < (acc ++ c).length + rest.flatten.length := by
        simp only [List.flatten_cons, List.length_append] at hlt ⊢
        omega
      obtain ⟨e, he⟩ := ih (acc ++ c) hlt2
      exact ⟨e, by rw [if_neg hc]; exact he⟩

theorem request_connected (c : HttpClient) (h : c.connected = true) : c.request = c := by
  simp [HttpClient.request, h]

theorem foldl_request_connected {β : Type} (l : List β) :
    ∀ c : HttpClient, c.connected = true → l.foldl (fun c _ => c.request) c = c := by
  induction l with
  | nil => intro c _; rfl
  | cons x xs ih =>
    intro c h
    simp only [List.foldl_cons]
    rw [request_connected c h]
    exact ih c h

end SqliteS3

namespace SqliteS3

/-- C1 (snapshot isolation): once `sessionPin` has recorded the version
identifier current at session open, every page read issued during the session
carries that same pinned identifier in its `versionId` parameter, whatever
interleaving of reads and concurrent overwrites the session sees. -/
theorem snapshot_isolation (st : VersionedObject) (s : PinnedSession)
    (events : List SessionEvent) (hpin : sessionPin st = some s)
    (r : ReadRequest) (hr : r ∈ (runEvents s st events).2) :
    r.versionId = s.pinnedVersion ∧ st.currentVersion = some s.pinnedVersion := by
  constructor
  · clear hpin
    induction events generalizing st with
    | nil => simp [runEvents] at hr
    | cons e rest ih =>
      cases e with
      | read off len =>
        simp only [runEvents, List.mem_cons] at hr
        rcases hr with rfl | hr
        · rfl
        · exact ih _ hr
      | overwrite v =>
        simp only [runEvents] at hr
        exact ih ⟨st.versions ++ [v]⟩ hr
  · simp only [sessionPin] at hpin
    obtain ⟨v, hv, hs⟩ := Option.map_eq_some'.mp hpin
    rw [← hs]
    exact hv

/-- Witness for C1 at a concrete session: two reads around a concurrent
overwrite, both carrying the pinned identifier of the version current at
open. -/
theorem snapshot_isolation_witness :
    sessionPin ⟨[⟨"v0", [1, 2]⟩]⟩ = some ⟨"v0"⟩ ∧
    (⟨0, 7, "v0"⟩ : ReadRequest) ∈
      (runEvents ⟨"v0"⟩ ⟨[⟨"v0", [1, 2]⟩]⟩
        [.read 5 3, .overwrite ⟨"v1", [9]⟩, .read 0 7]).2 ∧
    (ReadRequest.versionId ⟨0, 7, "v0"⟩ = "v0" ∧
      VersionedObject.currentVersion ⟨[⟨"v0", [1, 2]⟩]⟩ = some "v0") := by
  have h1 : sessionPin ⟨[⟨"v0", [1, 2]⟩]⟩ = some ⟨"v0"⟩ := rfl
  have h2 : (⟨0, 7, "v0"⟩ : ReadRequest) ∈
      (runEvents ⟨"v0"⟩ ⟨[⟨"v0", [1, 2]⟩]⟩
        [.read 5 3, .overwrite ⟨"v1", [9]⟩, .read 0 7]).2 := by
    simp [runEvents]
  exact ⟨h1, h2, snapshot_isolation _ _ _ h1 _ h2⟩

end SqliteS3

namespace SqliteS3

/-- C2 (exact byte count with overread defense): a successful ranged read of
length `L` delivers exactly `L` bytes, and when the server streams more than
`L` bytes the read fails and surfaces to the caller as an error whose message
contains the substring `disk I/O error` — never a silent truncation or
padding. -/
theorem read_exact_byte_count (L : Nat) (chunks : List (List Nat)) :
    (∀ bs, readExact L chunks = .ok bs → bs.length = L) ∧
    (L < chunks.flatten.length →
      ∃ m, surfaceToEngine (readExact L chunks) = .error m ∧
        substringOf "disk I/O error" m) := by
  constructor
  · intro bs h
    exact readStream_ok_length L chunks [] bs h
  · intro hover
    obtain ⟨e, he⟩ := readStream_overread L chunks []
      (by simpa using hover)
    refine ⟨"disk I/O error", ?_, "", "", by simp⟩
    simp only [readExact, he, surfaceToEngine]

/-- Witness for C2: a successful read of three bytes in two chunks returns
exactly three bytes, and a server answer of three bytes for a two-byte read
surfaces as a disk I/O error. -/
theorem read_exact_byte_count_witness :
    (readExact 3 [[1, 2], [3]] = .ok [1, 2, 3]) ∧
    (2 < ([[1, 2], [3]] : List (List Nat)).flatten.length) ∧
    (∃ m, surfaceToEngine (readExact 2 [[1, 2], [3]]) = .error m ∧
      substringOf "disk I/O error" m) := by
  refine ⟨rfl, by decide, (read_exact_byte_count 2 [[1, 2], [3]]).2 (by decide)⟩

/-- C3 (connection reuse): a session that performs its pinning probe and then
any number of queries, each with any number of page reads, opens exactly one
connection over its lifetime. -/
theorem connection_reuse (queries : List Nat) :
    (runSessionConnections queries).connectionsOpened = 1 := by
  have hgen : ∀ (qs : List Nat) (c : HttpClient), c.connected = true →
      qs.foldl (fun c pages => (List.range pages).foldl (fun c _ => c.request) c) c = c := by
    intro qs
    induction qs with
    | nil => intro c _; rfl
    | cons q rest ih =>
      intro c h
      simp only [List.foldl_cons]
      rw [foldl_request_connected _ c h]
      exact ih c h
  unfold runSessionConnections
  rw [hgen queries newClient.request rfl]
  rfl

/-- C7 counterexample: for the object whose body is 100 star bytes (the input
of `test_bad_db_header`), session open does not fail — it pins the version
and succeeds, refuting the claim that a bad magic header fails the open. -/
theorem bad_magic_open_succeeds :
    sessionOpen starsResponse = .ok ⟨"v1", List.replicate 100 42⟩ := rfl

/-- C7 as amended: when the pinning response carries a version identifier but
its first bytes do not start with the SQLite magic, the session opens
successfully and the failure surfaces at the first query, as a
database-format error. -/
theorem bad_magic_fails_at_first_query (resp : PinResponse) (v : String)
    (hv : resp.versionId = some v)
    (hbad : resp.first100.take 16 ≠ sqliteMagicBytes) :
    ∃ s, sessionOpen resp = .ok s ∧ firstQuery s = .error .notADatabase := by
  refine ⟨⟨v, resp.first100⟩, ?_, ?_⟩
  · simp [sessionOpen, hv]
  · simp [firstQuery, hbad]

/-- Witness for the amended C7 at the 100-star-byte object of
`test_bad_db_header`. -/
theorem bad_magic_fails_at_first_query_witness :
    starsResponse.versionId = some "v1" ∧
    starsResponse.first100.take 16 ≠ sqliteMagicBytes ∧
    ∃ s, sessionOpen starsResponse = .ok s ∧
      firstQuery s = .error .notADatabase := by
  have hbad : starsResponse.first100.take 16 ≠ sqliteMagicBytes := by decide
  exact ⟨rfl, hbad, bad_magic_fails_at_first_query starsResponse "v1" rfl hbad⟩

/-- C8 (placeholder binding): on the table with rows `('a','b')` and
`('c','d')`, the query `SELECT my_col_a FROM my_table WHERE my_col_b = ?`
with the single positional parameter `'d'` yields exactly the row list
`[('c',)]`. -/
theorem placeholder_binding : queryPlaceholder my_table ["d"] = some [["c"]] := rfl

end SqliteS3

namespace SqliteS3

/-- C4 (signing-key derivation): for every secret key, datestamp, region and
string-to-sign, the signature for the `s3` service is computed by the chain
`kDate = HMAC-SHA256("AWS4" + secret, datestamp)`,
`kRegion = HMAC-SHA256(kDate, region)`, `kService = HMAC-SHA256(kRegion, "s3")`,
`kSigning = HMAC-SHA256(kService, "aws4_request")`, the final signature being
the lowercase hex of `HMAC-SHA256(kSigning, string_to_sign)`. -/
theorem sigv4_signature_key_chain
    (secret_access_key datestamp region string_to_sign : String) :
    sigv4_signature secret_access_key datestamp region "s3" string_to_sign =
      let kDate := hmacSha256 (strBytes ("AWS4" ++ secret_access_key)) (strBytes datestamp)
      let kRegion := hmacSha256 kDate (strBytes region)
      let kService := hmacSha256 kRegion (strBytes "s3")
      let kSigning := hmacSha256 kService (strBytes "aws4_request")
      toHexLower (hmacSha256 kSigning (strBytes string_to_sign)) := rfl

/-- C5 (canonical request construction): the canonical request is the
newline-joined concatenation of the method, the percent-encoded path
preserving `/` and `~`, the canonical query string, the canonical header
block, a blank line, the SignedHeaders list and the body hash, where the
specification-side encodings are defined independently of the embedding of
`urllib.parse.quote`. -/
theorem canonical_request_spec (method path : String)
    (params headers : List (String × String)) (signed_headers body_hash : String) :
    sigv4_canonical_request method path params headers signed_headers body_hash =
      method ++ "\n" ++
      specPercentEncode (fun b => specUnreservedByte b || b == 47) path ++ "\n" ++
      specCanonicalQuery params ++ "\n" ++
      specHeaderBlock headers ++ "\n" ++
      signed_headers ++ "\n" ++ body_hash := by
  unfold sigv4_canonical_request specCanonicalQuery specHeaderBlock
  simp only [pyQuote_path_eq, pyQuote_tilde_eq]

/-- C6 (signer determinism): the signer is a pure function of its inputs with
the clock lifted to an explicit argument; two invocations whose inputs agree
— in particular whose clock instants format to the same `x-amz-date` and
datestamp — produce byte-identical headers. -/
theorem signer_deterministic (access_key_id secret_access_key : String)
    (pre_auth_headers : List (String × String)) (service region host method path : String)
    (params : List (String × String)) (body_hash : String) (now1 now2 : UTCTime)
    (hdate : amzdateOf now1 = amzdateOf now2)
    (hstamp : datestampOf now1 = datestampOf now2) :
    aws_sigv4_headers access_key_id secret_access_key pre_auth_headers service region
        host method path params body_hash now1 =
      aws_sigv4_headers access_key_id secret_access_key pre_auth_headers service region
        host method path params body_hash now2 := by
  simp only [aws_sigv4_headers, hdate, hstamp]

/-- Witness for C6 at one concrete instant. -/
theorem signer_deterministic_witness :
    amzdateOf ⟨2021, 2, 3, 4, 5, 6⟩ = amzdateOf ⟨2021, 2, 3, 4, 5, 6⟩ ∧
    datestampOf ⟨2021, 2, 3, 4, 5, 6⟩ = datestampOf ⟨2021, 2, 3, 4, 5, 6⟩ ∧
    aws_sigv4_headers "AKIA" "SK" [] "s3" "us-east-1" "localhost:9000" "GET"
        "/my-bucket/my.db" [] "bh" ⟨2021, 2, 3, 4, 5, 6⟩ =
      aws_sigv4_headers "AKIA" "SK" [] "s3" "us-east-1" "localhost:9000" "GET"
        "/my-bucket/my.db" [] "bh" ⟨2021, 2, 3, 4, 5, 6⟩ :=
  ⟨rfl, rfl, signer_deterministic "AKIA" "SK" [] "s3" "us-east-1" "localhost:9000" "GET"
    "/my-bucket/my.db" [] "bh" ⟨2021, 2, 3, 4, 5, 6⟩ ⟨2021, 2, 3, 4, 5, 6⟩ rfl rfl⟩

/-- C9 (signature invariance under query-parameter order): permuting the
query-parameter list leaves the whole output of `aws_sigv4_headers` — in
particular the signature inside the authorization header — unchanged, because
the parameters are percent-encoded and then sorted before entering the
canonical request. -/
theorem signer_params_perm (access_key_id secret_access_key : String)
    (pre_auth_headers : List (String × String)) (service region host method path : String)
    (params1 params2 : List (String × String)) (body_hash : String) (now : UTCTime)
    (hperm : params1.Perm params2) :
    aws_sigv4_headers access_key_id secret_access_key pre_auth_headers service region
        host method path params1 body_hash now =
      aws_sigv4_headers access_key_id secret_access_key pre_auth_headers service region
        host method path params2 body_hash now := by
  have hq : pySorted (params1.map (fun kv => (pyQuote kv.1 "~", pyQuote kv.2 "~"))) =
      pySorted (params2.map (fun kv => (pyQuote kv.1 "~", pyQuote kv.2 "~"))) :=
    pySorted_perm_eq (hperm.map _)
  simp only [aws_sigv4_headers, sigv4_canonical_request]
  rw [hq]

/-- Witness for C9: swapping two query parameters leaves the headers
unchanged. -/
theorem signer_params_perm_witness :
    ([("versionId", "abc"), ("a", "1")] : List (String × String)).Perm
        [("a", "1"), ("versionId", "abc")] ∧
    aws_sigv4_headers "AKIA" "SK" [] "s3" "us-east-1" "localhost:9000" "GET"
        "/my-bucket/my.db" [("versionId", "abc"), ("a", "1")] "bh" ⟨2021, 2, 3, 4, 5, 6⟩ =
      aws_sigv4_headers "AKIA" "SK" [] "s3" "us-east-1" "localhost:9000" "GET"
        "/my-bucket/my.db" [("a", "1"), ("versionId", "abc")] "bh" ⟨2021, 2, 3, 4, 5, 6⟩ := by
  have hperm : ([("versionId", "abc"), ("a", "1")] : List (String × String)).Perm
      [("a", "1"), ("versionId", "abc")] := List.Perm.swap ("a", "1") ("versionId", "abc") []
  exact ⟨hperm, signer_params_perm "AKIA" "SK" [] "s3" "us-east-1" "localhost:9000" "GET"
    "/my-bucket/my.db" _ _ "bh" ⟨2021, 2, 3, 4, 5, 6⟩ hperm⟩

/-- C10 (signer output composition): the output is exactly the three headers
authorization, x-amz-date, x-amz-content-sha256, in that order, followed by
the pre-existing headers verbatim (original casing and whitespace; the
lowercased copies are only used internally), and when the pre-existing
headers carry no x-amz-security-token header the output carries none
either. -/
theorem signer_output_composition (access_key_id secret_access_key : String)
    (pre_auth_headers : List (String × String)) (service region host method path : String)
    (params : List (String × String)) (body_hash : String) (now : UTCTime)
    (hpre : ∀ kv ∈ pre_auth_headers, kv.1 ≠ "x-amz-security-token") :
    (∃ auth : String,
      aws_sigv4_headers access_key_id secret_access_key pre_auth_headers service region
          host method path params body_hash now =
        ("authorization", auth) :: ("x-amz-date", amzdateOf now) ::
          ("x-amz-content-sha256", body_hash) :: pre_auth_headers) ∧
    ∀ kv ∈ aws_sigv4_headers access_key_id secret_access_key pre_auth_headers service
        region host method path params body_hash now,
      kv.1 ≠ "x-amz-security-token" := by
  constructor
  · exact ⟨_, rfl⟩
  · intro kv hkv
    simp only [aws_sigv4_headers, List.cons_append, List.nil_append, List.mem_cons] at hkv
    rcases hkv with rfl | rfl | rfl | hkv
    · exact (by decide : ("authorization" : String) ≠ "x-amz-security-token")
    · exact (by decide : ("x-amz-date" : String) ≠ "x-amz-security-token")
    · exact (by decide : ("x-amz-content-sha256" : String) ≠ "x-amz-security-token")
    · exact hpre kv hkv

/-- Witness for C10 with one mixed-case pre-existing header. -/
theorem signer_output_composition_witness :
    (∀ kv ∈ ([("Range", "bytes=0-99")] : List (String × String)),
      kv.1 ≠ "x-amz-security-token") ∧
    ((∃ auth : String,
      aws_sigv4_headers "AKIA" "SK" [("Range", "bytes=0-99")] "s3" "us-east-1"
          "localhost:9000" "GET" "/my-bucket/my.db" [] "bh" ⟨2021, 2, 3, 4, 5, 6⟩ =
        ("authorization", auth) :: ("x-amz-date", amzdateOf ⟨2021, 2, 3, 4, 5, 6⟩) ::
          ("x-amz-content-sha256", "bh") :: [("Range", "bytes=0-99")]) ∧
    ∀ kv ∈ aws_sigv4_headers "AKIA" "SK" [("Range", "bytes=0-99")] "s3" "us-east-1"
        "localhost:9000" "GET" "/my-bucket/my.db" [] "bh" ⟨2021, 2, 3, 4, 5, 6⟩,
      kv.1 ≠ "x-amz-security-token") := by
  have hpre : ∀ kv ∈ ([("Range", "bytes=0-99")] : List (String × String)),
      kv.1 ≠ "x-amz-security-token" := by decide
  exact ⟨hpre, signer_output_composition "AKIA" "SK" [("Range", "bytes=0-99")] "s3"
    "us-east-1" "localhost:9000" "GET" "/my-bucket/my.db" [] "bh" ⟨2021, 2, 3, 4, 5, 6⟩ hpre⟩

end SqliteS3
